import Mathlib

/-!
Verification development for the fir form-state library.

The development shallowly embeds the form controller of `src/lib/useForm.ts`
and the tree/path/schema helpers it imports from its utility module.  The
utility module itself is not part of the available sources, so those helpers
(`getDeepProp`, `setDeepProp`, `deepEqual`, `unwrapZodType`, `isRadio`,
`isCheckbox`) are modelled from the specification; every definition that is
modelled this way says so in its doc comment.  Everything taken from
`useForm.ts` is translated clause by clause from that file.

JavaScript values reachable through a form tree are modelled by the inductive
type `Value` (records, sequences, strings, integers, booleans, and the absent
value `undef`).  The schema capability is modelled by an abstract parse
function carried in the configuration, mirroring the spec's treatment of the
validation engine as an external collaborator.
-/

namespace Fir

/-- Path segment: a record key or a sequence index.  Modelled from the spec
(section 3, Path): each segment is a key plus a flag saying whether it
addresses an array element. -/
inductive Seg where
  | key (k : String)
  | idx (i : Nat)
  deriving DecidableEq, Repr

/-- Dotted name of a segment, `p.key` in the source. -/
def segKey : Seg → String
  | .key k => k
  | .idx i => toString i

/-- Dotted name of a path, as computed by `register` in `useForm.ts`:
`path.map(p => p.key).join('.')`. -/
def nameOfPath (p : List Seg) : String :=
  String.intercalate "." (p.map segKey)

mutual
/-- JavaScript-like tree value: absent, primitive, record or sequence. -/
inductive Value where
  | undef
  | str (s : String)
  | num (n : Int)
  | bool (b : Bool)
  | obj (fields : Fields)
  | arr (items : Values)
  deriving DecidableEq, Repr
/-- Record fields: an ordered association of keys to values. -/
inductive Fields where
  | nil
  | cons (key : String) (val : Value) (rest : Fields)
  deriving DecidableEq, Repr
/-- Sequence items. -/
inductive Values where
  | nil
  | cons (val : Value) (rest : Values)
  deriving DecidableEq, Repr
end

/-- First binding of a key in a record, `undefined`-free lookup. -/
def lookupField : Fields → String → Option Value
  | .nil, _ => none
  | .cons k v rest, key => if k = key then some v else lookupField rest key

/-- Replace the binding of a key, or append it when absent (JavaScript
property assignment on a record). -/
def updateField : Fields → String → Value → Fields
  | .nil, key, v => .cons key v .nil
  | .cons k w rest, key, v =>
      if k = key then .cons key v rest else .cons k w (updateField rest key v)

/-- Item of a sequence at an index. -/
def getItem : Values → Nat → Option Value
  | .nil, _ => none
  | .cons x _, 0 => some x
  | .cons _ rest, i + 1 => getItem rest i

/-- Write an item at an index, padding with `undef` when the sequence is too
short (JavaScript index assignment on an array). -/
def setItem : Values → Nat → Value → Values
  | .nil, 0, v => .cons v .nil
  | .nil, i + 1, v => .cons .undef (setItem .nil i v)
  | .cons _ rest, 0, v => .cons v rest
  | .cons x rest, i + 1, v => .cons x (setItem rest i v)

/-- Modelled from the spec: `getDeepProp` of the absent utility module
(section 4.1).  Walks the path from the root and returns the absent value if
any intermediate segment is missing or of the wrong shape; never fails. -/
def getDeepProp : Value → List Seg → Value
  | v, [] => v
  | v, seg :: rest =>
      match v, seg with
      | .obj fs, .key k =>
          match lookupField fs k with
          | some c => getDeepProp c rest
          | none => .undef
      | .arr xs, .idx i =>
          match getItem xs i with
          | some c => getDeepProp c rest
          | none => .undef
      | _, _ => Value.undef

/-- Modelled from the spec: `setDeepProp` of the absent utility module
(section 4.1).  Returns a new tree holding the value at the path; absent
intermediate containers are created as empty records or empty sequences
according to the segment's array-index flag. -/
def setDeepProp : Value → List Seg → Value → Value
  | _, [], value => value
  | v, .key k :: rest, value =>
      let fs := match v with | .obj fs => fs | _ => Fields.nil
      let child := match lookupField fs k with | some c => c | none => Value.undef
      .obj (updateField fs k (setDeepProp child rest value))
  | v, .idx i :: rest, value =>
      let xs := match v with | .arr xs => xs | _ => Values.nil
      let child := match getItem xs i with | some c => c | none => Value.undef
      .arr (setItem xs i (setDeepProp child rest value))

/-- Every key of the first record is present in the second. -/
def keysPresent : Fields → Fields → Bool
  | .nil, _ => true
  | .cons k _ rest, fs => (lookupField fs k).isSome && keysPresent rest fs

mutual
/-- Modelled from the spec: `deepEqual` of the absent utility module
(section 4.2).  Records compare by identical key sets with pairwise-equal
values, key order irrelevant; sequences compare by length and order;
primitives by value; any shape mismatch is unequal. -/
def deepEqual : Value → Value → Bool
  | .undef, .undef => true
  | .str a, .str b => a == b
  | .num a, .num b => a == b
  | .bool a, .bool b => a == b
  | .obj fs, .obj gs => fieldsSubset fs gs && keysPresent gs fs
  | .arr xs, .arr ys => seqEqual xs ys
  | _, _ => false
/-- Every binding of the first record is matched by a deeply equal binding of
the second. -/
def fieldsSubset : Fields → Fields → Bool
  | .nil, _ => true
  | .cons k v rest, gs =>
      (match lookupField gs k with
       | some w => deepEqual v w
       | none => false) && fieldsSubset rest gs
/-- Sequences of equal length with pairwise deeply equal items, in order. -/
def seqEqual : Values → Values → Bool
  | .nil, .nil => true
  | .cons v xs, .cons w ys => deepEqual v w && seqEqual xs ys
  | _, _ => false
end

mutual
/-- Well-formed tree: no record carries a duplicate key (JavaScript records
cannot). -/
def wfValue : Value → Bool
  | .obj fs => wfFields fs
  | .arr xs => wfValues xs
  | _ => true
/-- Well-formed record fields: distinct keys, well-formed values. -/
def wfFields : Fields → Bool
  | .nil => true
  | .cons k v rest => !(lookupField rest k).isSome && wfValue v && wfFields rest
/-- Well-formed sequence items. -/
def wfValues : Values → Bool
  | .nil => true
  | .cons v rest => wfValue v && wfValues rest
end

/-- Schema node shape, mirroring the external schema capability as described
by the spec (section 9, Design Notes): leaf kinds, composite kinds, and
modifier wrappers (optional, default, nullable, effect) around an inner
node. -/
inductive ZodType where
  | string
  | number
  | boolean
  | object (keys : List String)
  | array (elem : ZodType)
  | optional (inner : ZodType)
  | withDefault (inner : ZodType)
  | nullable (inner : ZodType)
  | effects (inner : ZodType)
  deriving DecidableEq, Repr

/-- Modelled from the spec: `unwrapZodType` of the absent utility module
(section 4.3).  Follows chains of optional, default, nullable and effect
wrappers down to the innermost concrete kind. -/
def unwrapZodType : ZodType → ZodType
  | .optional t => unwrapZodType t
  | .withDefault t => unwrapZodType t
  | .nullable t => unwrapZodType t
  | .effects t => unwrapZodType t
  | t => t

/-- Whether a schema node is the concrete string kind, the embedding of the
`instanceof z.ZodString` test in `register`. -/
def isZodString : ZodType → Bool
  | .string => true
  | _ => false

/-- Native control, carrying the observable state the controller reads and
writes: the `type` attribute, the `value` property (the option value for a
radio, the displayed text otherwise) and the `checked` property. -/
structure Control where
  ctype : String
  value : String
  checked : Bool
  deriving DecidableEq, Repr

/-- Modelled from the spec: `isRadio` of the absent utility module; a control
is a radio control when its type attribute says so. -/
def isRadio (c : Control) : Bool := c.ctype == "radio"

/-- Modelled from the spec: `isCheckbox` of the absent utility module; a
control is a checkbox when its type attribute says so. -/
def isCheckbox (c : Control) : Bool := c.ctype == "checkbox"

/-- JavaScript truthiness of a tree value, as used by `Boolean(value)` and by
`if (values)` in the source. -/
def truthy : Value → Bool
  | .undef => false
  | .str s => !(s == "")
  | .num n => !(n == 0)
  | .bool b => b
  | .obj _ => true
  | .arr _ => true

mutual
/-- JavaScript `String(value)` on a tree value. -/
def jsToString : Value → String
  | .undef => "undefined"
  | .str s => s
  | .num n => toString n
  | .bool b => if b then "true" else "false"
  | .obj _ => "[object Object]"
  | .arr xs => jsToStringItems xs
/-- JavaScript array stringification: items joined with commas. -/
def jsToStringItems : Values → String
  | .nil => ""
  | .cons v .nil => jsToString v
  | .cons v rest => jsToString v ++ "," ++ jsToStringItems rest
end

/-- Displayed string for a tree value, the source's `String(value ?? '')`:
empty string when the value is absent. -/
def displayString : Value → String
  | .undef => ""
  | v => jsToString v

/-- JavaScript strict equality between a control's string `value` property
and a tree value, the source's `ref.value === value`: true only for an equal
string. -/
def strictEqStr (s : String) : Value → Bool
  | .str t => s == t
  | _ => false

/-- Structured validation failure: an error set keyed by path (the spec's
path-addressable error collection), opaque to the controller. -/
def ZodErrors := List (String × String)

instance : DecidableEq ZodErrors := by
  unfold ZodErrors
  infer_instance

/-- Outcome of the external schema capability's parse: success with the
parsed (coerced and defaulted) value, or failure with a structured error
set. -/
inductive ParseResult where
  | success (data : Value)
  | failure (error : ZodErrors)
  deriving DecidableEq

/-- Configuration of `useForm`: the schema, abstracted to its parse function
(the spec treats the validation engine as an external capability), and the
configured initial values. -/
structure UseFormOptions where
  parse : Value → ParseResult
  initialValues : Value

/-- Controller state as held by the hook: current tree value, last stored
error set, the validate-on-change (touched) flag, the baseline used for the
dirty check, and the registration table of mounted controls, keyed by ref
index. -/
structure FormState where
  formValue : Value
  formErrors : Option ZodErrors
  validateOnChange : Bool
  internalInitialValues : Value
  fieldRefs : List (String × List Seg × Control)
  deriving DecidableEq

/-- Controller state right after construction, from the `useState`
initialisers in `useForm.ts`. -/
def initialFormState (o : UseFormOptions) : FormState :=
  { formValue := o.initialValues
    formErrors := none
    validateOnChange := false
    internalInitialValues := o.initialValues
    fieldRefs := [] }

/-- Whether the current tree value differs from the baseline,
`!deepEqual(formValue, internalInitialValues)` in the source. -/
def isDirty (s : FormState) : Bool :=
  !(deepEqual s.formValue s.internalInitialValues)

/-- The source's `reset`: sets both the baseline and the current tree value
to the given values, defaulting to the configured initial values. -/
def reset (o : UseFormOptions) (s : FormState) (values : Option Value) : FormState :=
  let v := values.getD o.initialValues
  { s with internalInitialValues := v, formValue := v }

/-- The source's `validate`: parse the current tree value; on success clear
the error state and return the parsed data, on failure store the error set
and return nothing. -/
def validate (o : UseFormOptions) (s : FormState) : FormState × Option Value :=
  match o.parse s.formValue with
  | .success d => ({ s with formErrors := none }, some d)
  | .failure e => ({ s with formErrors := some e }, none)

/-- One reconciliation write on a registered control, from the effect in
`useForm.ts`: radio controls are checked exactly when their own value is
strictly equal to the tree value at the path, checkboxes are checked exactly
when that value is truthy, every other control displays its string form. -/
def reconcileRef (formValue : Value) (path : List Seg) (c : Control) : Control :=
  let value := getDeepProp formValue path
  if isRadio c then
    if strictEqStr c.value value then { c with checked := true }
    else { c with checked := false }
  else if isCheckbox c then { c with checked := truthy value }
  else { c with value := displayString value }

/-- The effect of `useForm.ts` that watches for changes in value: run
`validate` when the touched flag is on, then push the tree's current value
into every registered control.  Returns the new state together with whether
validation ran. -/
def runEffect (o : UseFormOptions) (s : FormState) : FormState × Bool :=
  let s1 := if s.validateOnChange then (validate o s).1 else s
  let refs := s1.fieldRefs.map (fun e => (e.1, e.2.1, reconcileRef s1.formValue e.2.1 e.2.2))
  ({ s1 with fieldRefs := refs }, s.validateOnChange)

/-- A `setFormValue` writing a new leaf through `setDeepProp`, followed by
the watching effect (React re-runs the effect because the value changed). -/
def setFormValueAt (o : UseFormOptions) (s : FormState) (path : List Seg)
    (newValue : Value) : FormState × Bool :=
  runEffect o { s with formValue := setDeepProp s.formValue path newValue }

/-- ASCII lowering of one character, the relevant fragment of JavaScript's
`toLowerCase` for control type strings. -/
def lowerChar (c : Char) : Char :=
  if 65 ≤ c.toNat ∧ c.toNat ≤ 90 then Char.ofNat (c.toNat + 32) else c

/-- ASCII lowering of a string, the embedding of `toLowerCase()` as applied
to a control's `type` attribute. -/
def toLowerAscii (s : String) : String :=
  String.mk (s.data.map lowerChar)

/-- Change event payload read by `register`'s `onChange` handler:
`currentTarget.value`, `currentTarget.checked` and `currentTarget.type`. -/
structure ChangeEvent where
  value : String
  checked : Bool
  ctype : String
  deriving DecidableEq, Repr

/-- Value stored by `register`'s `onChange` handler, clause by clause from
`useForm.ts`: start from the control's string value; if the unwrapped field
schema is not the string kind and the value is the empty string, use the
absent value; if the control's type is checkbox, use the boolean checked
state instead. -/
def registerOnChangeValue (fieldSchema : ZodType) (e : ChangeEvent) : Value :=
  let unwrapped := unwrapZodType fieldSchema
  let newValue := if !(isZodString unwrapped) && e.value == "" then Value.undef
                  else Value.str e.value
  if toLowerAscii e.ctype == "checkbox" then Value.bool e.checked else newValue

/-- Full effect of a change event on a field bound via `register`: store the
coerced value at the field's path and run the watching effect. -/
def registerOnChange (o : UseFormOptions) (fieldSchema : ZodType)
    (path : List Seg) (e : ChangeEvent) (s : FormState) : FormState × Bool :=
  setFormValueAt o s path (registerOnChangeValue fieldSchema e)

/-- Lookup in the registration table. -/
def lookupEntry : List (String × List Seg × Control) → String → Option (List Seg × Control)
  | [], _ => none
  | (k, e) :: rest, key => if k = key then some e else lookupEntry rest key

/-- JavaScript property assignment on the registration table: replace the
binding of the key, or append it. -/
def insertEntry : List (String × List Seg × Control) → String → List Seg → Control →
    List (String × List Seg × Control)
  | [], key, p, c => [(key, p, c)]
  | (k, e) :: rest, key, p, c =>
      if k = key then (key, p, c) :: rest else (k, e) :: insertEntry rest key p c

/-- JavaScript `delete` of a key on the registration table. -/
def eraseEntry (table : List (String × List Seg × Control)) (key : String) :
    List (String × List Seg × Control) :=
  table.filter (fun e => !(e.1 == key))

/-- The `ref` callback produced by `register`, clause by clause from
`useForm.ts`: on mount, store the path and control under the dotted name —
with the control's own value appended for a radio control; on unmount
(called with nothing), delete the entry under the plain dotted name. -/
def refCallback (name : String) (path : List Seg)
    (table : List (String × List Seg × Control)) (c : Option Control) :
    List (String × List Seg × Control) :=
  match c with
  | some ref =>
      let refIndex := if isRadio ref then name ++ "." ++ ref.value else name
      insertEntry table refIndex path ref
  | none => eraseEntry table name

/-- Submit event, with the two flags `handleSubmit` sets. -/
structure FormEvent where
  defaultPrevented : Bool
  propagationStopped : Bool
  deriving DecidableEq, Repr

/-- Observable outcome of a `handleSubmit`-wrapped event: the new controller
state, the event flags, and the value the handler was invoked with, when it
was. -/
structure SubmitResult where
  state : FormState
  event : FormEvent
  handlerCalledWith : Option Value
  deriving DecidableEq

/-- The source's `handleSubmit`, applied to an event: prevent default and
stop propagation, run `validate`, invoke the handler with the parsed values
when `if (values)` passes (values returned and truthy), then enable
validate-on-change. -/
def handleSubmit (o : UseFormOptions) (s : FormState) (e : FormEvent) : SubmitResult :=
  let e1 := { e with defaultPrevented := true, propagationStopped := true }
  let vr := validate o s
  let called := match vr.2 with
    | some v => if truthy v then some v else none
    | none => none
  { state := { vr.1 with validateOnChange := true }
    event := e1
    handlerCalledWith := called }

/-! Helper lemmas about the tree operations. -/

/-- Reading anything out of the absent value yields the absent value. -/
theorem getDeepProp_undef : ∀ p : List Seg, getDeepProp Value.undef p = Value.undef
  | [] => rfl
  | .key _ :: _ => rfl
  | .idx _ :: _ => rfl

/-- Continuation of a read through an optional child. -/
def getSub (c : Option Value) (rest : List Seg) : Value :=
  match c with
  | some v => getDeepProp v rest
  | none => Value.undef

theorem getDeepProp_obj (fs : Fields) (k : String) (rest : List Seg) :
    getDeepProp (Value.obj fs) (Seg.key k :: rest) = getSub (lookupField fs k) rest := by
  cases h : lookupField fs k <;> simp [getDeepProp, getSub, h]

theorem getDeepProp_arr (xs : Values) (i : Nat) (rest : List Seg) :
    getDeepProp (Value.arr xs) (Seg.idx i :: rest) = getSub (getItem xs i) rest := by
  cases h : getItem xs i <;> simp [getDeepProp, getSub, h]

theorem lookupField_updateField_self : ∀ (fs : Fields) (k : String) (v : Value),
    lookupField (updateField fs k v) k = some v
  | .nil, k, v => by simp [updateField, lookupField]
  | .cons k1 w rest, k, v => by
      by_cases h : k1 = k <;>
        simp [updateField, lookupField, h, lookupField_updateField_self rest k v]

theorem lookupField_updateField_ne : ∀ (fs : Fields) (k k2 : String) (v : Value),
    k2 ≠ k → lookupField (updateField fs k v) k2 = lookupField fs k2
  | .nil, k, k2, v, h => by
      simp [updateField, lookupField, Ne.symm h]
  | .cons k1 w rest, k, k2, v, h => by
      by_cases h1 : k1 = k
      · subst h1
        simp [updateField, lookupField, Ne.symm h]
      · by_cases h2 : k1 = k2
        · subst h2
          simp [updateField, lookupField, h1]
        · simp [updateField, lookupField, h1, h2,
            lookupField_updateField_ne rest k k2 v h]

theorem getItem_setItem_self (i : Nat) (v : Value) :
    ∀ xs : Values, getItem (setItem xs i v) i = some v := by
  induction i with
  | zero => intro xs; cases xs <;> simp [setItem, getItem]
  | succ i ih => intro xs; cases xs <;> simp [setItem, getItem, ih]

theorem getSub_setItem_ne (i : Nat) (v : Value) :
    ∀ (xs : Values) (j : Nat), j ≠ i → ∀ rest : List Seg,
      getSub (getItem (setItem xs i v) j) rest = getSub (getItem xs j) rest := by
  induction i with
  | zero =>
      intro xs j hj rest
      cases xs <;> cases j with
      | zero => exact absurd rfl hj
      | succ j => simp [setItem, getItem, getSub]
  | succ i ih =>
      intro xs j hj rest
      cases xs with
      | nil =>
          cases j with
          | zero => simp [setItem, getItem, getSub, getDeepProp_undef]
          | succ j =>
              have := ih Values.nil j (by omega) rest
              simpa [setItem, getItem] using this
      | cons x rest1 =>
          cases j with
          | zero => simp [setItem, getItem, getSub]
          | succ j =>
              have := ih rest1 j (by omega) rest
              simpa [setItem, getItem] using this

/-- Round trip of the path operations: a value just written at a path is read
back from that path. -/
theorem getDeepProp_setDeepProp (p : List Seg) :
    ∀ (t v : Value), getDeepProp (setDeepProp t p v) p = v := by
  induction p with
  | nil => intro t v; rfl
  | cons seg rest ih =>
      intro t v
      cases seg with
      | key k =>
          simp only [setDeepProp, getDeepProp_obj, lookupField_updateField_self, getSub]
          exact ih _ v
      | idx i =>
          simp only [setDeepProp, getDeepProp_arr, getItem_setItem_self, getSub]
          exact ih _ v

/-- Two paths diverge when, after a common prefix, they continue with two
different keys of one record or two different indices of one sequence. -/
inductive Diverge : List Seg → List Seg → Prop
  | key {k1 k2 : String} (p q : List Seg) : k1 ≠ k2 →
      Diverge (Seg.key k1 :: p) (Seg.key k2 :: q)
  | idx {i1 i2 : Nat} (p q : List Seg) : i1 ≠ i2 →
      Diverge (Seg.idx i1 :: p) (Seg.idx i2 :: q)
  | cons (s : Seg) {p q : List Seg} : Diverge p q → Diverge (s :: p) (s :: q)

/-- Frame property of `setDeepProp`: a write at one path leaves the value at
any diverging path unchanged. -/
theorem setDeepProp_frame {p q : List Seg} (hd : Diverge p q) :
    ∀ (t v : Value), getDeepProp (setDeepProp t p v) q = getDeepProp t q := by
  induction hd with
  | key p q hne =>
      intro t v
      rename_i k1 k2
      have hlk : ∀ (fs : Fields) (x : Value),
          lookupField (updateField fs k1 x) k2 = lookupField fs k2 :=
        fun fs x => lookupField_updateField_ne fs k1 k2 x (Ne.symm hne)
      cases t with
      | obj fs => simp [setDeepProp, getDeepProp_obj, hlk]
      | undef =>
          simp [setDeepProp, getDeepProp_obj, getDeepProp, updateField, lookupField,
            getSub, hne]
      | str s =>
          simp [setDeepProp, getDeepProp_obj, getDeepProp, updateField, lookupField,
            getSub, hne]
      | num n =>
          simp [setDeepProp, getDeepProp_obj, getDeepProp, updateField, lookupField,
            getSub, hne]
      | bool b =>
          simp [setDeepProp, getDeepProp_obj, getDeepProp, updateField, lookupField,
            getSub, hne]
      | arr xs =>
          simp [setDeepProp, getDeepProp_obj, getDeepProp, updateField, lookupField,
            getSub, hne]
  | idx p q hne =>
      intro t v
      rename_i i1 i2
      have hgi : ∀ (xs : Values) (x : Value),
          getSub (getItem (setItem xs i1 x) i2) q = getSub (getItem xs i2) q :=
        fun xs x => getSub_setItem_ne i1 x xs i2 (Ne.symm hne) q
      cases t with
      | arr xs => simp [setDeepProp, getDeepProp_arr, hgi]
      | undef =>
          rw [show setDeepProp Value.undef (Seg.idx i1 :: p) v
              = Value.arr (setItem Values.nil i1 (setDeepProp Value.undef p v)) from rfl,
            getDeepProp_arr, hgi]
          rfl
      | str s =>
          rw [show setDeepProp (Value.str s) (Seg.idx i1 :: p) v
              = Value.arr (setItem Values.nil i1 (setDeepProp Value.undef p v)) from rfl,
            getDeepProp_arr, hgi]
          rfl
      | num n =>
          rw [show setDeepProp (Value.num n) (Seg.idx i1 :: p) v
              = Value.arr (setItem Values.nil i1 (setDeepProp Value.undef p v)) from rfl,
            getDeepProp_arr, hgi]
          rfl
      | bool b =>
          rw [show setDeepProp (Value.bool b) (Seg.idx i1 :: p) v
              = Value.arr (setItem Values.nil i1 (setDeepProp Value.undef p v)) from rfl,
            getDeepProp_arr, hgi]
          rfl
      | obj fs =>
          rw [show setDeepProp (Value.obj fs) (Seg.idx i1 :: p) v
              = Value.arr (setItem Values.nil i1 (setDeepProp Value.undef p v)) from rfl,
            getDeepProp_arr, hgi]
          rfl
  | cons s hd ih =>
      intro t v
      cases s with
      | key k =>
          cases t with
          | obj fs =>
              cases h : lookupField fs k with
              | some c =>
                  simp [setDeepProp, getDeepProp_obj, h,
                    lookupField_updateField_self, getSub, ih]
              | none =>
                  simp [setDeepProp, getDeepProp_obj, h,
                    lookupField_updateField_self, getSub, ih, getDeepProp_undef]
          | undef =>
              simp [setDeepProp, getDeepProp_obj, getDeepProp, lookupField,
                lookupField_updateField_self, getSub, ih, getDeepProp_undef]
          | str s =>
              simp [setDeepProp, getDeepProp_obj, getDeepProp, lookupField,
                lookupField_updateField_self, getSub, ih, getDeepProp_undef]
          | num n =>
              simp [setDeepProp, getDeepProp_obj, getDeepProp, lookupField,
                lookupField_updateField_self, getSub, ih, getDeepProp_undef]
          | bool b =>
              simp [setDeepProp, getDeepProp_obj, getDeepProp, lookupField,
                lookupField_updateField_self, getSub, ih, getDeepProp_undef]
          | arr xs =>
              simp [setDeepProp, getDeepProp_obj, getDeepProp, lookupField,
                lookupField_updateField_self, getSub, ih, getDeepProp_undef]
      | idx i =>
          cases t with
          | arr xs =>
              cases h : getItem xs i with
              | some c =>
                  simp [setDeepProp, getDeepProp_arr, h,
                    getItem_setItem_self, getSub, ih]
              | none =>
                  simp [setDeepProp, getDeepProp_arr, h,
                    getItem_setItem_self, getSub, ih, getDeepProp_undef]
          | undef =>
              simp [setDeepProp, getDeepProp_arr, getDeepProp, getItem,
                getItem_setItem_self, getSub, ih, getDeepProp_undef]
          | str s =>
              simp [setDeepProp, getDeepProp_arr, getDeepProp, getItem,
                getItem_setItem_self, getSub, ih, getDeepProp_undef]
          | num n =>
              simp [setDeepProp, getDeepProp_arr, getDeepProp, getItem,
                getItem_setItem_self, getSub, ih, getDeepProp_undef]
          | bool b =>
              simp [setDeepProp, getDeepProp_arr, getDeepProp, getItem,
                getItem_setItem_self, getSub, ih, getDeepProp_undef]
          | obj fs =>
              simp [setDeepProp, getDeepProp_arr, getDeepProp, getItem,
                getItem_setItem_self, getSub, ih, getDeepProp_undef]

/-- Membership of a binding in a record's field list. -/
inductive MemField : String → Value → Fields → Prop
  | head (k : String) (v : Value) (rest : Fields) : MemField k v (.cons k v rest)
  | tail (k1 : String) (w : Value) {k : String} {v : Value} {rest : Fields} :
      MemField k v rest → MemField k v (.cons k1 w rest)

theorem memField_lookup_isSome {k : String} {v : Value} {fs : Fields}
    (h : MemField k v fs) : (lookupField fs k).isSome = true := by
  induction h with
  | head k v rest => simp [lookupField]
  | @tail k1 w k2 v2 rest hm ih =>
      by_cases hk : k1 = k2 <;> simp [lookupField, hk, ih]

theorem lookupField_eq_of_wf {k : String} {v : Value} {fs : Fields}
    (hwf : wfFields fs = true) (h : MemField k v fs) : lookupField fs k = some v := by
  induction h with
  | head k v rest => simp [lookupField]
  | @tail k1 w k2 v2 rest hm ih =>
      simp [wfFields] at hwf
      by_cases hk : k1 = k2
      · subst hk
        exact absurd (memField_lookup_isSome hm) (by simp [hwf.1.1])
      · simpa [lookupField, hk] using ih hwf.2

theorem fieldsSubset_of : ∀ (fs gs : Fields),
    (∀ k v, MemField k v fs → ∃ w, lookupField gs k = some w ∧ deepEqual v w = true) →
    fieldsSubset fs gs = true
  | .nil, _, _ => rfl
  | .cons k v rest, gs, h => by
      obtain ⟨w, hw, hd⟩ := h k v (MemField.head k v rest)
      have hrest := fieldsSubset_of rest gs (fun k2 v2 hm => h k2 v2 (MemField.tail k v hm))
      simp [fieldsSubset, hw, hd, hrest]

theorem keysPresent_of : ∀ (fs gs : Fields),
    (∀ k v, MemField k v fs → (lookupField gs k).isSome = true) →
    keysPresent fs gs = true
  | .nil, _, _ => rfl
  | .cons k v rest, gs, h => by
      have hk := h k v (MemField.head k v rest)
      have hrest := keysPresent_of rest gs (fun k2 v2 hm => h k2 v2 (MemField.tail k v hm))
      simp [keysPresent, hk, hrest]

mutual
/-- Structural equality is reflexive on well-formed trees. -/
theorem deepEqual_refl : ∀ v : Value, wfValue v = true → deepEqual v v = true
  | .undef, _ => rfl
  | .str s, _ => by simp [deepEqual]
  | .num n, _ => by simp [deepEqual]
  | .bool b, _ => by simp [deepEqual]
  | .obj fs, h => by
      have hwf : wfFields fs = true := by simpa [wfValue] using h
      have h1 : fieldsSubset fs fs = true :=
        fieldsSubset_of fs fs (fun k v hm =>
          ⟨v, lookupField_eq_of_wf hwf hm, memField_deepEqual_refl fs hwf k v hm⟩)
      have h2 : keysPresent fs fs = true :=
        keysPresent_of fs fs (fun k v hm => memField_lookup_isSome hm)
      simp [deepEqual, h1, h2]
  | .arr xs, h => by
      have hwf : wfValues xs = true := by simpa [wfValue] using h
      simpa [deepEqual] using seqEqual_refl xs hwf
/-- Every binding of a well-formed record is deeply equal to itself. -/
theorem memField_deepEqual_refl : ∀ fs : Fields, wfFields fs = true →
    ∀ k v, MemField k v fs → deepEqual v v = true
  | .cons k1 v1 rest, h, k, v, hm => by
      simp [wfFields] at h
      cases hm with
      | head => exact deepEqual_refl v1 h.1.2
      | tail _ _ hm2 => exact memField_deepEqual_refl rest h.2 k v hm2
  | .nil, _, _, _, hm => by cases hm
/-- Every well-formed sequence is pairwise deeply equal to itself. -/
theorem seqEqual_refl : ∀ xs : Values, wfValues xs = true → seqEqual xs xs = true
  | .nil, _ => rfl
  | .cons v rest, h => by
      simp [wfValues] at h
      simp [seqEqual, deepEqual_refl v h.1, seqEqual_refl rest h.2]
end

/-! Helper lemmas about the controller operations. -/

/-- A validation run can only change the stored error set. -/
theorem validate_state_frame (o : UseFormOptions) (s : FormState) :
    (validate o s).1.formValue = s.formValue
    ∧ (validate o s).1.internalInitialValues = s.internalInitialValues
    ∧ (validate o s).1.validateOnChange = s.validateOnChange
    ∧ (validate o s).1.fieldRefs = s.fieldRefs := by
  cases hp : o.parse s.formValue <;> simp [validate, hp]

/-- The watching effect keeps the tree value, the baseline and the touched
flag, and reports whether validation ran. -/
theorem runEffect_frame (o : UseFormOptions) (s : FormState) :
    (runEffect o s).1.formValue = s.formValue
    ∧ (runEffect o s).1.internalInitialValues = s.internalInitialValues
    ∧ (runEffect o s).1.validateOnChange = s.validateOnChange
    ∧ (runEffect o s).2 = s.validateOnChange := by
  cases hv : s.validateOnChange <;>
    simp [runEffect, hv, (validate_state_frame o s).1,
      (validate_state_frame o s).2.1, (validate_state_frame o s).2.2.1]

/-! Claim theorems. -/

/-- Claim C6: for every tree, path and value, `get` after `set` at the same
path returns the written value, and the written tree agrees with the input
tree at every path that diverges from the written one (the operations are
pure functions, so the input tree itself is never mutated). -/
theorem claim_c6_set_get_roundtrip (t : Value) (p : List Seg) (v : Value) :
    getDeepProp (setDeepProp t p v) p = v
    ∧ ∀ q : List Seg, Diverge p q →
        getDeepProp (setDeepProp t p v) q = getDeepProp t q :=
  ⟨getDeepProp_setDeepProp p t v, fun _ hd => setDeepProp_frame hd t v⟩

/-- Witness for C6 at a concrete record, path and value. -/
theorem claim_c6_witness :
    getDeepProp
        (setDeepProp (Value.obj (Fields.cons "a" (Value.num 1) Fields.nil))
          [Seg.key "b"] (Value.str "x"))
        [Seg.key "b"] = Value.str "x"
    ∧ getDeepProp
        (setDeepProp (Value.obj (Fields.cons "a" (Value.num 1) Fields.nil))
          [Seg.key "b"] (Value.str "x"))
        [Seg.key "a"] = Value.num 1 :=
  ⟨(claim_c6_set_get_roundtrip (Value.obj (Fields.cons "a" (Value.num 1) Fields.nil))
      [Seg.key "b"] (Value.str "x")).1,
   ((claim_c6_set_get_roundtrip (Value.obj (Fields.cons "a" (Value.num 1) Fields.nil))
      [Seg.key "b"] (Value.str "x")).2 [Seg.key "a"]
      (Diverge.key [] [] (by decide))).trans rfl⟩

/-- Claim C2: the validate-on-change (touched) flag starts disabled, a
`handleSubmit`-wrapped event enables it whatever the validation outcome, no
operation disables it (`reset` leaves it alone), and a value change runs
validation exactly when the flag is on. -/
theorem claim_c2_touched_flag (o : UseFormOptions) :
    (initialFormState o).validateOnChange = false
    ∧ (∀ (s : FormState) (e : FormEvent),
        (handleSubmit o s e).state.validateOnChange = true)
    ∧ (∀ (s : FormState) (p : List Seg) (v : Value),
        (setFormValueAt o s p v).1.validateOnChange = s.validateOnChange
        ∧ (setFormValueAt o s p v).2 = s.validateOnChange)
    ∧ (∀ (s : FormState) (values : Option Value),
        (reset o s values).validateOnChange = s.validateOnChange)
    ∧ (∀ s : FormState, (validate o s).1.validateOnChange = s.validateOnChange) := by
  refine ⟨rfl, fun s e => rfl, fun s p v => ⟨?_, ?_⟩, fun s values => rfl,
    fun s => (validate_state_frame o s).2.2.1⟩
  · exact (runEffect_frame o _).2.2.1
  · exact (runEffect_frame o _).2.2.2

/-- Claim C9: `reset` sets both the baseline and the current tree value to
the provided values, or to the configured initial values when the argument is
omitted, and changes neither the touched flag nor the stored errors. -/
theorem claim_c9_reset (o : UseFormOptions) (s : FormState) :
    (∀ v : Value, (reset o s (some v)).formValue = v
      ∧ (reset o s (some v)).internalInitialValues = v)
    ∧ (reset o s none).formValue = o.initialValues
    ∧ (reset o s none).internalInitialValues = o.initialValues
    ∧ (∀ values : Option Value,
        (reset o s values).validateOnChange = s.validateOnChange
        ∧ (reset o s values).formErrors = s.formErrors
        ∧ (reset o s values).fieldRefs = s.fieldRefs) :=
  ⟨fun _ => ⟨rfl, rfl⟩, rfl, rfl, fun _ => ⟨rfl, rfl, rfl⟩⟩

/-- Claim C10: `validate` changes nothing but the stored error set: the tree
value, the baseline, the touched flag and the registration table are
untouched, and the parsed result is only returned to the caller. -/
theorem claim_c10_validate_frame (o : UseFormOptions) (s : FormState) :
    (validate o s).1.formValue = s.formValue
    ∧ (validate o s).1.internalInitialValues = s.internalInitialValues
    ∧ (validate o s).1.validateOnChange = s.validateOnChange
    ∧ (validate o s).1.fieldRefs = s.fieldRefs := by
  cases hp : o.parse s.formValue <;> simp [validate, hp]

/-- Claim C5: every `validate` call parses the current tree value; success
clears the stored errors and returns the parsed value, failure stores
exactly the new error set — independent of any previous one — and returns
nothing. -/
theorem claim_c5_validate (o : UseFormOptions) (s : FormState) :
    (∀ d : Value, o.parse s.formValue = ParseResult.success d →
      (validate o s).1.formErrors = none ∧ (validate o s).2 = some d)
    ∧ (∀ err : ZodErrors, o.parse s.formValue = ParseResult.failure err →
      (validate o s).1.formErrors = some err ∧ (validate o s).2 = none) := by
  constructor
  · intro d hd
    simp [validate, hd]
  · intro err he
    simp [validate, he]

/-- Witness for C5: a succeeding and a failing parse at concrete states. -/
theorem claim_c5_witness :
    ((validate ⟨fun _ => ParseResult.success (Value.obj Fields.nil), Value.undef⟩
        (initialFormState
          ⟨fun _ => ParseResult.success (Value.obj Fields.nil), Value.undef⟩)).1.formErrors
      = none)
    ∧ ((validate ⟨fun _ => ParseResult.failure [("age", "Required")], Value.undef⟩
        { formValue := Value.undef
          formErrors := some [("name", "Required")]
          validateOnChange := true
          internalInitialValues := Value.undef
          fieldRefs := [] }).1.formErrors = some [("age", "Required")]) :=
  ⟨((claim_c5_validate ⟨fun _ => ParseResult.success (Value.obj Fields.nil), Value.undef⟩
      (initialFormState
        ⟨fun _ => ParseResult.success (Value.obj Fields.nil), Value.undef⟩)).1
      (Value.obj Fields.nil) rfl).1,
   ((claim_c5_validate ⟨fun _ => ParseResult.failure [("age", "Required")], Value.undef⟩
      { formValue := Value.undef
        formErrors := some [("name", "Required")]
        validateOnChange := true
        internalInitialValues := Value.undef
        fieldRefs := [] }).2
      [("age", "Required")] rfl).1⟩

/-- Claim C3: a `handleSubmit`-wrapped event prevents the default action,
stops propagation, runs `validate`, invokes the handler with the parsed
value exactly when validation succeeded (object results are always truthy,
which the source's `if (values)` additionally checks), and unconditionally
enables validate-on-change afterward. -/
theorem claim_c3_handleSubmit (o : UseFormOptions) (s : FormState) (e : FormEvent) :
    (handleSubmit o s e).event.defaultPrevented = true
    ∧ (handleSubmit o s e).event.propagationStopped = true
    ∧ (handleSubmit o s e).state.validateOnChange = true
    ∧ (handleSubmit o s e).state.formErrors = (validate o s).1.formErrors
    ∧ (∀ err : ZodErrors, o.parse s.formValue = ParseResult.failure err →
        (handleSubmit o s e).handlerCalledWith = none)
    ∧ (∀ d : Value, o.parse s.formValue = ParseResult.success d → truthy d = true →
        (handleSubmit o s e).handlerCalledWith = some d) := by
  refine ⟨rfl, rfl, rfl, rfl, ?_, ?_⟩
  · intro err he
    simp [handleSubmit, validate, he]
  · intro d hd ht
    simp [handleSubmit, validate, hd, ht]

/-- Witness for C3: a submit over a succeeding parse invokes the handler
with the parsed record and sets every flag; the hypotheses hold by
computation. -/
theorem claim_c3_witness :
    ((handleSubmit ⟨fun _ => ParseResult.success (Value.obj Fields.nil), Value.undef⟩
        (initialFormState
          ⟨fun _ => ParseResult.success (Value.obj Fields.nil), Value.undef⟩)
        { defaultPrevented := false, propagationStopped := false }).handlerCalledWith
      = some (Value.obj Fields.nil))
    ∧ ((handleSubmit ⟨fun _ => ParseResult.success (Value.obj Fields.nil), Value.undef⟩
        (initialFormState
          ⟨fun _ => ParseResult.success (Value.obj Fields.nil), Value.undef⟩)
        { defaultPrevented := false, propagationStopped := false }).event.defaultPrevented
      = true) :=
  ⟨((claim_c3_handleSubmit ⟨fun _ => ParseResult.success (Value.obj Fields.nil), Value.undef⟩
      (initialFormState ⟨fun _ => ParseResult.success (Value.obj Fields.nil), Value.undef⟩)
      { defaultPrevented := false, propagationStopped := false }).2.2.2.2.2
      (Value.obj Fields.nil) rfl rfl),
   ((claim_c3_handleSubmit ⟨fun _ => ParseResult.success (Value.obj Fields.nil), Value.undef⟩
      (initialFormState ⟨fun _ => ParseResult.success (Value.obj Fields.nil), Value.undef⟩)
      { defaultPrevented := false, propagationStopped := false }).1)⟩

/-- Claim C1: a change event on a field bound via `register` stores, at the
field's path, the absent value when a non-checkbox control carries the empty
string and the unwrapped schema kind is not string, the empty string itself
when the unwrapped kind is string, and the boolean checked state when the
control's type is checkbox. -/
theorem claim_c1_onchange_coercion (o : UseFormOptions) (s : FormState)
    (fieldSchema : ZodType) (path : List Seg) (e : ChangeEvent) :
    (toLowerAscii e.ctype ≠ "checkbox" → e.value = "" →
      getDeepProp (registerOnChange o fieldSchema path e s).1.formValue path
        = (if isZodString (unwrapZodType fieldSchema) then Value.str "" else Value.undef))
    ∧ (toLowerAscii e.ctype = "checkbox" →
      getDeepProp (registerOnChange o fieldSchema path e s).1.formValue path
        = Value.bool e.checked) := by
  have hfv : (registerOnChange o fieldSchema path e s).1.formValue
      = setDeepProp s.formValue path (registerOnChangeValue fieldSchema e) :=
    (runEffect_frame o _).1
  constructor
  · intro hck hval
    rw [hfv, getDeepProp_setDeepProp]
    cases hu : isZodString (unwrapZodType fieldSchema) <;>
      simp [registerOnChangeValue, hck, hval, hu]
  · intro hck
    rw [hfv, getDeepProp_setDeepProp]
    simp [registerOnChangeValue, hck]

/-- Witness for C1: an empty text input bound to a defaulted number schema
stores the absent value; a checkbox bound anywhere stores its checked
state. -/
theorem claim_c1_witness :
    (getDeepProp
      (registerOnChange ⟨fun _ => ParseResult.failure [], Value.undef⟩
        (ZodType.withDefault ZodType.number) [Seg.key "age"]
        { value := "", checked := false, ctype := "text" }
        (initialFormState ⟨fun _ => ParseResult.failure [], Value.undef⟩)).1.formValue
      [Seg.key "age"] = Value.undef)
    ∧ (getDeepProp
      (registerOnChange ⟨fun _ => ParseResult.failure [], Value.undef⟩
        ZodType.boolean [Seg.key "tick"]
        { value := "on", checked := true, ctype := "checkbox" }
        (initialFormState ⟨fun _ => ParseResult.failure [], Value.undef⟩)).1.formValue
      [Seg.key "tick"] = Value.bool true) :=
  ⟨((claim_c1_onchange_coercion ⟨fun _ => ParseResult.failure [], Value.undef⟩
      (initialFormState ⟨fun _ => ParseResult.failure [], Value.undef⟩)
      (ZodType.withDefault ZodType.number) [Seg.key "age"]
      { value := "", checked := false, ctype := "text" }).1
      (by decide) rfl).trans (by decide),
   ((claim_c1_onchange_coercion ⟨fun _ => ParseResult.failure [], Value.undef⟩
      (initialFormState ⟨fun _ => ParseResult.failure [], Value.undef⟩)
      ZodType.boolean [Seg.key "tick"]
      { value := "on", checked := true, ctype := "checkbox" }).2 rfl)⟩

/-- Scenario refuting the last part of C4 as stated: baseline holds the
record with `a = 1`. -/
def dirtyOptions : UseFormOptions :=
  ⟨fun _ => ParseResult.failure [], Value.obj (Fields.cons "a" (Value.num 1) Fields.nil)⟩

/-- State after changing `a` to 2: dirty. -/
def dirtyState1 : FormState :=
  (setFormValueAt dirtyOptions (initialFormState dirtyOptions) [Seg.key "a"] (Value.num 2)).1

/-- State after changing `a` back to 1, with no reset in between. -/
def dirtyState2 : FormState :=
  (setFormValueAt dirtyOptions dirtyState1 [Seg.key "a"] (Value.num 1)).1

/-- Counterexample to C4 as stated: the second `set` changes the leaf value
(from 2 to 1), no reset occurs — the baseline still holds `a = 1` — yet
`isDirty` is false immediately after it rather than remaining true until the
next reset. -/
theorem claim_c4_counterexample :
    getDeepProp dirtyState1.formValue [Seg.key "a"] ≠ Value.num 1
    ∧ isDirty dirtyState1 = true
    ∧ isDirty dirtyState2 = false
    ∧ dirtyState2.internalInitialValues
      = Value.obj (Fields.cons "a" (Value.num 1) Fields.nil) := by
  decide

/-- Claim C4 (amended): `isDirty` is true exactly when the current tree value
is not deeply equal to the baseline; immediately after construction or
`reset` it is false; a `set` leaves `isDirty` true precisely when the
resulting tree is not deeply equal to the baseline — a later `set` that
restores deep equality with the baseline makes it false again before any
reset. -/
theorem claim_c4_isDirty (o : UseFormOptions) (s : FormState) (values : Option Value)
    (hwf0 : wfValue o.initialValues = true)
    (hwf : wfValue (values.getD o.initialValues) = true) :
    (isDirty s = true ↔ ¬ deepEqual s.formValue s.internalInitialValues = true)
    ∧ isDirty (initialFormState o) = false
    ∧ isDirty (reset o s values) = false
    ∧ (∀ (p : List Seg) (v : Value),
        deepEqual (setDeepProp s.formValue p v) s.internalInitialValues = false →
        isDirty (setFormValueAt o s p v).1 = true) := by
  refine ⟨by simp [isDirty], ?_, ?_, ?_⟩
  · simp [isDirty, initialFormState, deepEqual_refl _ hwf0]
  · simp [isDirty, reset, deepEqual_refl _ hwf]
  · intro p v h
    have h1 : (setFormValueAt o s p v).1.formValue = setDeepProp s.formValue p v :=
      (runEffect_frame o _).1
    have h2 : (setFormValueAt o s p v).1.internalInitialValues = s.internalInitialValues :=
      (runEffect_frame o _).2.1
    simp [isDirty, h1, h2, h]

/-- Witness for the amended C4 on the concrete dirty scenario. -/
theorem claim_c4_witness :
    isDirty (initialFormState dirtyOptions) = false
    ∧ isDirty (reset dirtyOptions dirtyState2 none) = false
    ∧ isDirty (setFormValueAt dirtyOptions (initialFormState dirtyOptions)
        [Seg.key "a"] (Value.num 2)).1 = true :=
  ⟨(claim_c4_isDirty dirtyOptions dirtyState2 none (by decide) (by decide)).2.1,
   (claim_c4_isDirty dirtyOptions dirtyState2 none (by decide) (by decide)).2.2.1,
   (claim_c4_isDirty dirtyOptions (initialFormState dirtyOptions) none
      (by decide) (by decide)).2.2.2 [Seg.key "a"] (Value.num 2) (by decide)⟩

/-- Claim C7: on every reconciliation run each registered control receives
the tree's current value at its path: a radio control's checked state
becomes the strict equality of its own value with the tree value, a
checkbox's checked state becomes the truthiness of the tree value, and any
other control displays the string form of the tree value — the empty string
when it is absent. -/
theorem claim_c7_reconciliation (o : UseFormOptions) (s : FormState) :
    (runEffect o s).1.fieldRefs
      = s.fieldRefs.map (fun en => (en.1, en.2.1, reconcileRef s.formValue en.2.1 en.2.2))
    ∧ (∀ (fv : Value) (path : List Seg) (c : Control),
        (isRadio c = true →
          (reconcileRef fv path c).checked = strictEqStr c.value (getDeepProp fv path))
        ∧ (isRadio c = false → isCheckbox c = true →
          (reconcileRef fv path c).checked = truthy (getDeepProp fv path))
        ∧ (isRadio c = false → isCheckbox c = false →
          (reconcileRef fv path c).value = displayString (getDeepProp fv path))) := by
  constructor
  · cases hv : s.validateOnChange <;>
      simp [runEffect, hv, (validate_state_frame o s).1, (validate_state_frame o s).2.2.2]
  · intro fv path c
    refine ⟨?_, ?_, ?_⟩
    · intro hr
      by_cases hs : strictEqStr c.value (getDeepProp fv path) = true <;>
        simp_all [reconcileRef]
    · intro hr hc
      simp [reconcileRef, hr, hc]
    · intro hr hc
      simp [reconcileRef, hr, hc]

/-- Witness for C7, the spec's radio scenario: with tree value `choice = "a"`
the `"a"`-valued radio is checked and the `"b"`-valued one is not; a text
control bound to an absent path displays the empty string. -/
theorem claim_c7_witness :
    (reconcileRef (Value.obj (Fields.cons "choice" (Value.str "a") Fields.nil))
      [Seg.key "choice"] { ctype := "radio", value := "a", checked := false }).checked = true
    ∧ (reconcileRef (Value.obj (Fields.cons "choice" (Value.str "a") Fields.nil))
      [Seg.key "choice"] { ctype := "radio", value := "b", checked := true }).checked = false
    ∧ (reconcileRef (Value.obj (Fields.cons "choice" (Value.str "a") Fields.nil))
      [Seg.key "missing"] { ctype := "text", value := "stale", checked := false }).value = "" :=
  ⟨(((claim_c7_reconciliation dirtyOptions (initialFormState dirtyOptions)).2
      (Value.obj (Fields.cons "choice" (Value.str "a") Fields.nil)) [Seg.key "choice"]
      { ctype := "radio", value := "a", checked := false }).1 rfl).trans (by decide),
   (((claim_c7_reconciliation dirtyOptions (initialFormState dirtyOptions)).2
      (Value.obj (Fields.cons "choice" (Value.str "a") Fields.nil)) [Seg.key "choice"]
      { ctype := "radio", value := "b", checked := true }).1 rfl).trans (by decide),
   (((claim_c7_reconciliation dirtyOptions (initialFormState dirtyOptions)).2
      (Value.obj (Fields.cons "choice" (Value.str "a") Fields.nil)) [Seg.key "missing"]
      { ctype := "text", value := "stale", checked := false }).2.2 (by decide)
      (by decide)).trans rfl⟩

/-- A mounted radio control with option value `a`. -/
def radioControl : Control := { ctype := "radio", value := "a", checked := false }

/-- Registration table after the radio control mounts under path `choice`. -/
def radioMountTable : List (String × List Seg × Control) :=
  refCallback "choice" [Seg.key "choice"] [] (some radioControl)

/-- Registration table after the same control unmounts. -/
def radioUnmountTable : List (String × List Seg × Control) :=
  refCallback "choice" [Seg.key "choice"] radioMountTable none

/-- Counterexample to C8 as stated: a radio control mounts under the key
`choice.a`, but its unmount deletes only the key `choice`, so the very entry
the mount created is still present afterwards — the table is unchanged. -/
theorem claim_c8_counterexample :
    lookupEntry radioMountTable "choice.a" = some ([Seg.key "choice"], radioControl)
    ∧ lookupEntry radioUnmountTable "choice.a" = some ([Seg.key "choice"], radioControl)
    ∧ radioUnmountTable = radioMountTable := by
  decide

theorem lookupEntry_insertEntry_self (table : List (String × List Seg × Control))
    (k : String) (p : List Seg) (c : Control) :
    lookupEntry (insertEntry table k p c) k = some (p, c) := by
  induction table with
  | nil => simp [insertEntry, lookupEntry]
  | cons en rest ih =>
      by_cases h : en.1 = k <;> simp [insertEntry, lookupEntry, h, ih]

theorem lookupEntry_eraseEntry_self (table : List (String × List Seg × Control))
    (k : String) : lookupEntry (eraseEntry table k) k = none := by
  induction table with
  | nil => simp [eraseEntry, lookupEntry]
  | cons en rest ih =>
      by_cases h : en.1 = k <;> simp_all [eraseEntry, lookupEntry, h]

/-- Claim C8 (amended): the ref callback on mount records the path and the
control in the registration table, keyed by the field's dotted name — with
the control's option value appended for radio controls; on unmount it
removes the entry keyed by the plain dotted name, which is the mount entry
for every non-radio control, while a radio control's entry remains. -/
theorem claim_c8_refCallback (path : List Seg)
    (table : List (String × List Seg × Control)) (c : Control) :
    (isRadio c = false →
      refCallback (nameOfPath path) path table (some c)
        = insertEntry table (nameOfPath path) path c
      ∧ lookupEntry (refCallback (nameOfPath path) path table (some c))
          (nameOfPath path) = some (path, c))
    ∧ (isRadio c = true →
      refCallback (nameOfPath path) path table (some c)
        = insertEntry table (nameOfPath path ++ "." ++ c.value) path c
      ∧ lookupEntry (refCallback (nameOfPath path) path table (some c))
          (nameOfPath path ++ "." ++ c.value) = some (path, c))
    ∧ refCallback (nameOfPath path) path table none = eraseEntry table (nameOfPath path)
    ∧ lookupEntry (refCallback (nameOfPath path) path table none)
        (nameOfPath path) = none := by
  refine ⟨?_, ?_, rfl, lookupEntry_eraseEntry_self table (nameOfPath path)⟩
  · intro hr
    refine ⟨by simp [refCallback, hr], ?_⟩
    simp [refCallback, hr, lookupEntry_insertEntry_self]
  · intro hr
    refine ⟨by simp [refCallback, hr], ?_⟩
    simp [refCallback, hr, lookupEntry_insertEntry_self]

/-- Witness for the amended C8: a text control's mount entry is removed by
its unmount; the radio control's mount entry sits under the suffixed key. -/
theorem claim_c8_witness :
    lookupEntry (refCallback (nameOfPath [Seg.key "name"]) [Seg.key "name"] []
      (some { ctype := "text", value := "", checked := false }))
      "name" = some ([Seg.key "name"], { ctype := "text", value := "", checked := false })
    ∧ lookupEntry (refCallback (nameOfPath [Seg.key "choice"]) [Seg.key "choice"]
        radioMountTable none) "choice" = none
    ∧ lookupEntry (refCallback (nameOfPath [Seg.key "choice"]) [Seg.key "choice"] []
        (some radioControl)) "choice.a" = some ([Seg.key "choice"], radioControl) :=
  ⟨(((claim_c8_refCallback [Seg.key "name"] []
      { ctype := "text", value := "", checked := false }).1 (by decide)).2).trans (by decide),
   ((claim_c8_refCallback [Seg.key "choice"] radioMountTable radioControl).2.2.2).trans rfl,
   (((claim_c8_refCallback [Seg.key "choice"] [] radioControl).2.1 (by decide)).2).trans
     (by decide)⟩

end Fir
